import Mathlib

/-!
Shallow embedding of the `hass-miner` Home Assistant integration
(`custom_components/miner/sensor.py` and `custom_components/miner/config_flow.py`)
together with theorems about its dynamic sensor-creation logic and its
configuration flow.

Python dictionaries are modelled as association lists (`List (k × v)`) with a
first-match lookup; the mutable `sensor_created` set is modelled as a
`Finset String` threaded explicitly through the entity-creation operations in
the order the Python code performs them.  Sensor telemetry values are modelled
by `Int` (their arithmetic is never used by the code under study).
-/

set_option autoImplicit false

namespace HassMiner

/-- First-match lookup in an association list; models a Python dict read that
may miss (`d[k]` raising `KeyError` / `k in d` being false becomes `none`). -/
def findKey {α β : Type} [DecidableEq α] (k : α) : List (α × β) → Option β
  | [] => none
  | kv :: rest => if kv.1 = k then some kv.2 else findKey k rest

/-- `ENTITY_DESCRIPTION_KEY_MAP` from `sensor.py`, reduced to the only datum the
claims can observe: the description `key` string passed as the positional
argument of each `MinerSensorEntityDescription`. -/
def ENTITY_DESCRIPTION_KEY_MAP : List (String × String) :=
  [ ("temperature", "Temperature")
  , ("board_temperature", "Board Temperature")
  , ("chip_temperature", "Chip Temperature")
  , ("hashrate", "Hashrate")
  , ("ideal_hashrate", "Ideal Hashrate")
  , ("board_hashrate", "Board Hashrate")
  , ("power_limit", "Power Limit")
  , ("miner_consumption", "Miner Consumption")
  , ("efficiency", "Efficiency") ]

/-- `ENTITY_DESCRIPTION_KEY_MAP.get(key, MinerSensorEntityDescription("base_sensor"))`. -/
def descriptionFor (key : String) : String :=
  (findKey key ENTITY_DESCRIPTION_KEY_MAP).getD "base_sensor"

/-- The `coordinator.data` snapshot read by the sensor platform:
`data["miner_sensors"]` is a flat dict of sensor key to value and
`data["board_sensors"]` maps a board index to a dict of sensor key to value. -/
structure MinerData where
  minerSensors : List (String × Int)
  boardSensors : List (Nat × List (String × Int))
deriving DecidableEq

/-- The keys of `coordinator.data["miner_sensors"]`, in iteration order. -/
def MinerData.minerKeys (d : MinerData) : List String :=
  d.minerSensors.map Prod.fst

/-- The state of a `MinerSensor` entity: its dict key and the `key` of its
`entity_description`. -/
structure MinerSensor where
  _key : String
  entity_description : String
deriving DecidableEq

/-- The state of a `MinerBoardSensor` entity: its board index, its sensor key
and the `key` of its `entity_description`. -/
structure MinerBoardSensor where
  _board_num : Nat
  _sensor : String
  entity_description : String
deriving DecidableEq

/-- An entity handed to `async_add_entities`: either a miner-level
`MinerSensor` or a board-level `MinerBoardSensor`. -/
inductive Entity where
  | miner (s : MinerSensor)
  | board (s : MinerBoardSensor)
deriving DecidableEq

/-- `_create_miner_entity` from `async_setup_entry`: adds `key` to
`sensor_created` and returns the new `MinerSensor`. -/
def _create_miner_entity (key : String) (sensor_created : Finset String) :
    Finset String × Entity :=
  (insert key sensor_created, Entity.miner ⟨key, descriptionFor key⟩)

/-- The dedup key `_create_board_entity` adds to `sensor_created`:
`f"board_{board_num}-{sensor}"`. -/
def boardCreatedKey (board_num : Nat) (sensor : String) : String :=
  "board_" ++ toString board_num ++ "-" ++ sensor

/-- The key `new_data_received` tests for membership in `sensor_created`:
`f"{new_board}-{sensor}"`. -/
def boardCheckKey (board_num : Nat) (sensor : String) : String :=
  toString board_num ++ "-" ++ sensor

/-- `_create_board_entity` from `async_setup_entry`: adds
`f"board_{board_num}-{sensor}"` to `sensor_created` and returns the new
`MinerBoardSensor`. -/
def _create_board_entity (board_num : Nat) (sensor : String)
    (sensor_created : Finset String) : Finset String × Entity :=
  (insert (boardCreatedKey board_num sensor) sensor_created,
   Entity.board ⟨board_num, sensor, descriptionFor sensor⟩)

/-- The initial-setup generator
`_create_miner_entity(key) for key in coordinator.data["miner_sensors"]`:
creates one entity per key, unconditionally, threading `sensor_created`. -/
def setupMinerEntities : List String → Finset String → Finset String × List Entity
  | [], s => (s, [])
  | key :: keys, s =>
    let p := _create_miner_entity key s
    let q := setupMinerEntities keys p.1
    (q.1, p.2 :: q.2)

/-- The initial-setup generator
`_create_board_entity(board, sensor) for sensor in [...]` for one board:
creates one entity per listed sensor, unconditionally. -/
def setupBoardEntities (board : Nat) :
    List String → Finset String → Finset String × List Entity
  | [], s => (s, [])
  | sen :: sens, s =>
    let p := _create_board_entity board sen s
    let q := setupBoardEntities board sens p.1
    (q.1, p.2 :: q.2)

/-- The initial-setup loop `for board in range(coordinator.miner.expected_hashboards)`,
creating the fixed three board sensors for each board. -/
def setupBoards : List Nat → Finset String → Finset String × List Entity
  | [], s => (s, [])
  | b :: bs, s =>
    let p := setupBoardEntities b
      ["board_temperature", "chip_temperature", "board_hashrate"] s
    let q := setupBoards bs p.1
    (q.1, p.2 ++ q.2)

/-- The body of `async_setup_entry` after the first refresh: `sensor_created`
starts empty, one miner entity is created per `miner_sensors` key, then three
board entities per expected hashboard.  Returns the final `sensor_created` set
and the list passed to `async_add_entities`. -/
def async_setup_entry (d : MinerData) (expected_hashboards : Nat) :
    Finset String × List Entity :=
  let p := setupMinerEntities d.minerKeys ∅
  let q := setupBoards (List.range expected_hashboards) p.1
  (q.1, p.2 ++ q.2)

/-- The miner-sensor part of `new_data_received`: iterate the
`miner_sensors` keys and create an entity for each key
`if key not in sensor_created`, threading the set as the Python generator
does. -/
def refreshMinerEntities : List String → Finset String → Finset String × List Entity
  | [], s => (s, [])
  | key :: keys, s =>
    if key ∈ s then refreshMinerEntities keys s
    else
      let p := _create_miner_entity key s
      let q := refreshMinerEntities keys p.1
      (q.1, p.2 :: q.2)

/-- The inner board generator of `new_data_received` for one board: creates an
entity `if f"{new_board}-{sensor}" not in sensor_created` — note the check key
lacks the `board_` prefix that `_create_board_entity` records. -/
def refreshBoardEntities (new_board : Nat) :
    List String → Finset String → Finset String × List Entity
  | [], s => (s, [])
  | sen :: sens, s =>
    if boardCheckKey new_board sen ∈ s then refreshBoardEntities new_board sens s
    else
      let p := _create_board_entity new_board sen s
      let q := refreshBoardEntities new_board sens p.1
      (q.1, p.2 :: q.2)

/-- The outer board loop of `new_data_received`:
`for new_board in coordinator.data["board_sensors"]`. -/
def refreshBoards : List (Nat × List String) → Finset String → Finset String × List Entity
  | [], s => (s, [])
  | (b, sens) :: rest, s =>
    let p := refreshBoardEntities b sens s
    let q := refreshBoards rest p.1
    (q.1, p.2 ++ q.2)

/-- The `new_data_received` refresh callback: diff the miner-sensor keys
against `sensor_created`, then (when `board_sensors` is non-empty) do the
per-board diff.  Returns the updated `sensor_created` and the list of newly
created entities handed to `async_add_entities`. -/
def new_data_received (d : MinerData) (sensor_created : Finset String) :
    Finset String × List Entity :=
  let p := refreshMinerEntities d.minerKeys sensor_created
  let q :=
    if d.boardSensors = [] then (p.1, [])
    else refreshBoards (d.boardSensors.map fun x => (x.1, x.2.map Prod.fst)) p.1
  (q.1, p.2 ++ q.2)

/-- `MinerSensor._sensor_data`: `self.coordinator.data["miner_sensors"][self._key]`,
with the potential `KeyError` modelled as `none`. -/
def MinerSensor._sensor_data (e : MinerSensor) (d : MinerData) : Option Int :=
  findKey e._key d.minerSensors

/-- `MinerSensor.native_value`: `return self._sensor_data`. -/
def MinerSensor.native_value (e : MinerSensor) (d : MinerData) : Option Int :=
  e._sensor_data d

/-- `MinerBoardSensor._sensor_data`: membership-checked two-level read of
`coordinator.data["board_sensors"]`, returning `None` when the board index or
the sensor key is absent. -/
def MinerBoardSensor._sensor_data (e : MinerBoardSensor) (d : MinerData) : Option Int :=
  match findKey e._board_num d.boardSensors with
  | some boardData =>
    match findKey e._sensor boardData with
    | some v => some v
    | none => none
  | none => none

/-- `MinerBoardSensor.native_value`: `return self._sensor_data`. -/
def MinerBoardSensor.native_value (e : MinerBoardSensor) (d : MinerData) : Option Int :=
  e._sensor_data d

/-- The keys of the miner-level entities in a created-entity list, in order. -/
def minerEntityKeys : List Entity → List String
  | [] => []
  | Entity.miner ms :: es => ms._key :: minerEntityKeys es
  | Entity.board _ :: es => minerEntityKeys es

/-- Number of occurrences of a key in a list of strings. -/
def countKey (k : String) : List String → Nat
  | [] => 0
  | a :: rest => (if a = k then 1 else 0) + countKey k rest

/-! ## Embedding of `config_flow.py` -/

/-- Modelled from the spec: the configuration keys defined in `const.py`,
which is not among the source files; the flow only uses them as distinct
dictionary keys, so their exact literals are immaterial. -/
def CONF_IP : String := "ip"

/-- Modelled from the spec: configuration key from `const.py` (see `CONF_IP`). -/
def CONF_RPC_PASSWORD : String := "rpc_password"

/-- Modelled from the spec: configuration key from `const.py` (see `CONF_IP`). -/
def CONF_WEB_USERNAME : String := "web_username"

/-- Modelled from the spec: configuration key from `const.py` (see `CONF_IP`). -/
def CONF_WEB_PASSWORD : String := "web_password"

/-- Modelled from the spec: configuration key from `const.py` (see `CONF_IP`). -/
def CONF_SSH_USERNAME : String := "ssh_username"

/-- Modelled from the spec: configuration key from `const.py` (see `CONF_IP`). -/
def CONF_SSH_PASSWORD : String := "ssh_password"

/-- The remote-procedure interface of a `pyasic` miner, as the flow reads it:
only its `pwd` attribute is inspected. -/
structure RPCInterface where
  pwd : Option String
deriving DecidableEq

/-- The web administration interface of a `pyasic` miner: `username` and
`pwd` are read for form defaults. -/
structure WebInterface where
  username : String
  pwd : Option String
deriving DecidableEq

/-- The remote-shell interface of a `pyasic` miner: `username` and `pwd` are
read for form defaults. -/
structure SSHInterface where
  username : String
  pwd : Option String
deriving DecidableEq

/-- The `api` attribute of a `pyasic` miner as the flow dereferences it:
only its `pwd` attribute is inspected. -/
structure APIInterface where
  pwd : Option String
deriving DecidableEq

/-- A `pyasic.AnyMiner` as observed by the config flow: each management
interface attribute may be `None`. -/
structure AnyMiner where
  rpc : Option RPCInterface
  web : Option WebInterface
  ssh : Option SSHInterface
  api : Option APIInterface
deriving DecidableEq

/-- `validate_ip_input`, parameterised by the behaviour of `pyasic.get_miner`:
returns the `(errors, miner)` pair. -/
def validate_ip_input (get_miner : Option String → Option AnyMiner)
    (data : List (String × String)) :
    List (String × String) × Option AnyMiner :=
  let miner_ip := findKey CONF_IP data
  match get_miner miner_ip with
  | none => ([("base", "Unable to connect to Miner, is IP correct?")], none)
  | some miner => ([], some miner)

/-- A field of the login form schema with its computed default.  The RPC
password default is `Optional[str]` in the source (it can be a web `pwd` that
is `None`); the remaining defaults are plain strings. -/
inductive SchemaField where
  | rpcPassword (d : Option String)
  | webUsername (d : String)
  | webPassword (d : String)
  | sshUsername (d : String)
  | sshPassword (d : String)
deriving DecidableEq

/-- The `if self._miner.rpc is not None: if self._miner.rpc.pwd is not None:`
block of `async_step_login`.  A `none` result models the `AttributeError`
raised when the branch dereferences `self._miner.api` or `self._miner.web`
while it is `None`; the fallback default is evaluated before
`user_input.get` consults `user_input`, exactly as Python evaluates
arguments. -/
def rpcGroupFields (m : AnyMiner) (user_input : List (String × String)) :
    Option (List SchemaField) :=
  match m.rpc with
  | none => some []
  | some rpc =>
    match rpc.pwd with
    | none => some []
    | some _ =>
      match m.api with
      | none => none
      | some api =>
        let fallback : Option (Option String) :=
          match api.pwd with
          | none => some (some "")
          | some _ =>
            match m.web with
            | none => none
            | some web => some web.pwd
        match fallback with
        | none => none
        | some fb =>
          let d : Option String :=
            match findKey CONF_RPC_PASSWORD user_input with
            | some v => some v
            | none => fb
          some [SchemaField.rpcPassword d]

/-- The `if self._miner.web is not None:` block of `async_step_login`. -/
def webGroupFields (m : AnyMiner) (user_input : List (String × String)) :
    List SchemaField :=
  match m.web with
  | none => []
  | some web =>
    [ SchemaField.webUsername ((findKey CONF_WEB_USERNAME user_input).getD web.username)
    , SchemaField.webPassword
        ((findKey CONF_WEB_PASSWORD user_input).getD (web.pwd.getD "")) ]

/-- The `if self._miner.ssh is not None:` block of `async_step_login`. -/
def sshGroupFields (m : AnyMiner) (user_input : List (String × String)) :
    List SchemaField :=
  match m.ssh with
  | none => []
  | some ssh =>
    [ SchemaField.sshUsername ((findKey CONF_SSH_USERNAME user_input).getD ssh.username)
    , SchemaField.sshPassword
        ((findKey CONF_SSH_PASSWORD user_input).getD (ssh.pwd.getD "")) ]

/-- `async_step_login`: build the credential form schema for the discovered
miner, RPC block first (its `AttributeError`, modelled as `none`, aborts the
step before the web and SSH blocks run). -/
def async_step_login (m : AnyMiner) (user_input : List (String × String)) :
    Option (List SchemaField) :=
  match rpcGroupFields m user_input with
  | none => none
  | some rpcFields =>
    some (rpcFields ++ webGroupFields m user_input ++ sshGroupFields m user_input)

/-- Is a schema field part of the RPC protocol group? -/
def isRpcField : SchemaField → Bool
  | SchemaField.rpcPassword _ => true
  | _ => false

/-- Is a schema field part of the web protocol group? -/
def isWebField : SchemaField → Bool
  | SchemaField.webUsername _ => true
  | SchemaField.webPassword _ => true
  | _ => false

/-- Is a schema field part of the SSH protocol group? -/
def isSshField : SchemaField → Bool
  | SchemaField.sshUsername _ => true
  | SchemaField.sshPassword _ => true
  | _ => false

/-- Number of distinct protocol groups represented in a schema. -/
def groupCount (fields : List SchemaField) : Nat :=
  (if fields.any isRpcField then 1 else 0)
    + (if fields.any isWebField then 1 else 0)
    + (if fields.any isSshField then 1 else 0)

/-! ## Supporting lemmas -/

@[simp] theorem findKey_nil {α β : Type} [DecidableEq α] (k : α) :
    findKey (β := β) k [] = none := rfl

@[simp] theorem findKey_cons {α β : Type} [DecidableEq α] (k : α) (kv : α × β)
    (rest : List (α × β)) :
    findKey k (kv :: rest) = if kv.1 = k then some kv.2 else findKey k rest := rfl

@[simp] theorem countKey_nil (k : String) : countKey k [] = 0 := rfl

@[simp] theorem countKey_cons (k a : String) (rest : List String) :
    countKey k (a :: rest) = (if a = k then 1 else 0) + countKey k rest := rfl

theorem countKey_append (k : String) (l1 l2 : List String) :
    countKey k (l1 ++ l2) = countKey k l1 + countKey k l2 := by
  induction l1 with
  | nil => simp
  | cons a l1 ih => simp [ih]; omega

@[simp] theorem minerEntityKeys_nil : minerEntityKeys [] = [] := rfl

@[simp] theorem minerEntityKeys_cons_miner (ms : MinerSensor) (es : List Entity) :
    minerEntityKeys (Entity.miner ms :: es) = ms._key :: minerEntityKeys es := rfl

@[simp] theorem minerEntityKeys_cons_board (bs : MinerBoardSensor) (es : List Entity) :
    minerEntityKeys (Entity.board bs :: es) = minerEntityKeys es := rfl

theorem minerEntityKeys_append (l1 l2 : List Entity) :
    minerEntityKeys (l1 ++ l2) = minerEntityKeys l1 ++ minerEntityKeys l2 := by
  induction l1 with
  | nil => simp
  | cons e l1 ih => cases e <;> simp [ih]

theorem refreshMinerEntities_count (k : String) :
    ∀ (ks : List String) (s : Finset String),
      countKey k (minerEntityKeys (refreshMinerEntities ks s).2)
        = if k ∈ ks ∧ k ∉ s then 1 else 0 := by
  intro ks
  induction ks with
  | nil => intro s; simp [refreshMinerEntities]
  | cons a ks ih =>
    intro s
    by_cases ha : a ∈ s
    · rw [refreshMinerEntities, if_pos ha, ih]
      by_cases hk : k = a
      · subst hk; simp [ha]
      · simp [List.mem_cons, hk]
    · rw [refreshMinerEntities, if_neg ha]
      simp only [_create_miner_entity]
      by_cases hk : k = a
      · subst hk
        simp [ih, Finset.mem_insert, ha]
      · simp [ih, Finset.mem_insert, hk, Ne.symm hk]

theorem minerEntityKeys_refreshBoardEntities (b : Nat) :
    ∀ (sens : List String) (s : Finset String),
      minerEntityKeys (refreshBoardEntities b sens s).2 = [] := by
  intro sens
  induction sens with
  | nil => intro s; simp [refreshBoardEntities]
  | cons sen sens ih =>
    intro s
    rw [refreshBoardEntities]
    by_cases h : boardCheckKey b sen ∈ s
    · rw [if_pos h, ih]
    · rw [if_neg h]
      simp [_create_board_entity, ih]

theorem minerEntityKeys_refreshBoards :
    ∀ (l : List (Nat × List String)) (s : Finset String),
      minerEntityKeys (refreshBoards l s).2 = [] := by
  intro l
  induction l with
  | nil => intro s; simp [refreshBoards]
  | cons p l ih =>
    intro s
    rw [refreshBoards]
    simp [minerEntityKeys_append, minerEntityKeys_refreshBoardEntities, ih]

theorem refreshMinerEntities_subset :
    ∀ (ks : List String) (s : Finset String), s ⊆ (refreshMinerEntities ks s).1 := by
  intro ks
  induction ks with
  | nil => intro s; simp [refreshMinerEntities]
  | cons a ks ih =>
    intro s
    rw [refreshMinerEntities]
    by_cases ha : a ∈ s
    · rw [if_pos ha]; exact ih s
    · rw [if_neg ha]
      exact (Finset.subset_insert a s).trans (ih (insert a s))

theorem refreshBoardEntities_subset (b : Nat) :
    ∀ (sens : List String) (s : Finset String), s ⊆ (refreshBoardEntities b sens s).1 := by
  intro sens
  induction sens with
  | nil => intro s; simp [refreshBoardEntities]
  | cons sen sens ih =>
    intro s
    rw [refreshBoardEntities]
    by_cases h : boardCheckKey b sen ∈ s
    · rw [if_pos h]; exact ih s
    · rw [if_neg h]
      exact (Finset.subset_insert _ s).trans (ih _)

theorem refreshBoards_subset :
    ∀ (l : List (Nat × List String)) (s : Finset String), s ⊆ (refreshBoards l s).1 := by
  intro l
  induction l with
  | nil => intro s; simp [refreshBoards]
  | cons p l ih =>
    intro s
    rw [refreshBoards]
    exact (refreshBoardEntities_subset p.1 p.2 s).trans (ih _)

theorem setupMinerEntities_subset :
    ∀ (ks : List String) (s : Finset String), s ⊆ (setupMinerEntities ks s).1 := by
  intro ks
  induction ks with
  | nil => intro s; simp [setupMinerEntities]
  | cons a ks ih =>
    intro s
    rw [setupMinerEntities]
    exact (Finset.subset_insert a s).trans (ih (insert a s))

theorem setupBoardEntities_subset (b : Nat) :
    ∀ (sens : List String) (s : Finset String), s ⊆ (setupBoardEntities b sens s).1 := by
  intro sens
  induction sens with
  | nil => intro s; simp [setupBoardEntities]
  | cons sen sens ih =>
    intro s
    rw [setupBoardEntities]
    exact (Finset.subset_insert _ s).trans (ih _)

theorem setupBoards_subset :
    ∀ (bs : List Nat) (s : Finset String), s ⊆ (setupBoards bs s).1 := by
  intro bs
  induction bs with
  | nil => intro s; simp [setupBoards]
  | cons b bs ih =>
    intro s
    rw [setupBoards]
    exact (setupBoardEntities_subset b _ s).trans (ih _)

theorem refreshMinerEntities_mem_of_mem :
    ∀ (ks : List String) (s : Finset String) (k : String),
      k ∈ ks → k ∈ (refreshMinerEntities ks s).1 := by
  intro ks
  induction ks with
  | nil => intro s k hk; simp at hk
  | cons a ks ih =>
    intro s k hk
    rw [refreshMinerEntities]
    rcases List.mem_cons.mp hk with h | h
    · subst h
      by_cases ha : k ∈ s
      · rw [if_pos ha]; exact refreshMinerEntities_subset ks s ha
      · rw [if_neg ha]
        exact refreshMinerEntities_subset ks _ (Finset.mem_insert_self k s)
    · by_cases ha : a ∈ s
      · rw [if_pos ha]; exact ih s k h
      · rw [if_neg ha]; exact ih _ k h

theorem setupMinerEntities_snd :
    ∀ (ks : List String) (s : Finset String),
      (setupMinerEntities ks s).2
        = ks.map (fun k => Entity.miner ⟨k, descriptionFor k⟩) := by
  intro ks
  induction ks with
  | nil => intro s; simp [setupMinerEntities]
  | cons a ks ih =>
    intro s
    rw [setupMinerEntities]
    simp [_create_miner_entity, ih]

theorem setupBoardEntities_snd (b : Nat) :
    ∀ (sens : List String) (s : Finset String),
      (setupBoardEntities b sens s).2
        = sens.map (fun sen => Entity.board ⟨b, sen, descriptionFor sen⟩) := by
  intro sens
  induction sens with
  | nil => intro s; simp [setupBoardEntities]
  | cons sen sens ih =>
    intro s
    rw [setupBoardEntities]
    simp [_create_board_entity, ih]

theorem setupBoards_snd :
    ∀ (bs : List Nat) (s : Finset String),
      (setupBoards bs s).2
        = bs.flatMap (fun b =>
            ["board_temperature", "chip_temperature", "board_hashrate"].map
              (fun sen => Entity.board ⟨b, sen, descriptionFor sen⟩)) := by
  intro bs
  induction bs with
  | nil => intro s; simp [setupBoards]
  | cons b bs ih =>
    intro s
    rw [setupBoards]
    simp [setupBoardEntities_snd, ih]

@[simp] theorem isRpcField_rpcPassword (d : Option String) :
    isRpcField (SchemaField.rpcPassword d) = true := rfl

@[simp] theorem isRpcField_webUsername (d : String) :
    isRpcField (SchemaField.webUsername d) = false := rfl

@[simp] theorem isRpcField_webPassword (d : String) :
    isRpcField (SchemaField.webPassword d) = false := rfl

@[simp] theorem isRpcField_sshUsername (d : String) :
    isRpcField (SchemaField.sshUsername d) = false := rfl

@[simp] theorem isRpcField_sshPassword (d : String) :
    isRpcField (SchemaField.sshPassword d) = false := rfl

@[simp] theorem isWebField_rpcPassword (d : Option String) :
    isWebField (SchemaField.rpcPassword d) = false := rfl

@[simp] theorem isWebField_webUsername (d : String) :
    isWebField (SchemaField.webUsername d) = true := rfl

@[simp] theorem isWebField_webPassword (d : String) :
    isWebField (SchemaField.webPassword d) = true := rfl

@[simp] theorem isWebField_sshUsername (d : String) :
    isWebField (SchemaField.sshUsername d) = false := rfl

@[simp] theorem isWebField_sshPassword (d : String) :
    isWebField (SchemaField.sshPassword d) = false := rfl

@[simp] theorem isSshField_rpcPassword (d : Option String) :
    isSshField (SchemaField.rpcPassword d) = false := rfl

@[simp] theorem isSshField_webUsername (d : String) :
    isSshField (SchemaField.webUsername d) = false := rfl

@[simp] theorem isSshField_webPassword (d : String) :
    isSshField (SchemaField.webPassword d) = false := rfl

@[simp] theorem isSshField_sshUsername (d : String) :
    isSshField (SchemaField.sshUsername d) = true := rfl

@[simp] theorem isSshField_sshPassword (d : String) :
    isSshField (SchemaField.sshPassword d) = true := rfl

theorem rpcGroupFields_any_isRpc (m : AnyMiner) (ui : List (String × String))
    (r : List SchemaField) (h : rpcGroupFields m ui = some r)
    (hr : r.any isRpcField = true) :
    ∃ rpc, m.rpc = some rpc ∧ rpc.pwd ≠ none := by
  obtain ⟨rpc, web, ssh, api⟩ := m
  cases rpc with
  | none => simp [rpcGroupFields] at h; subst h; simp at hr
  | some rpcv =>
    obtain ⟨rpwd⟩ := rpcv
    cases rpwd with
    | none => simp [rpcGroupFields] at h; subst h; simp at hr
    | some p => exact ⟨⟨some p⟩, rfl, by simp⟩

theorem rpcGroupFields_no_web_ssh (m : AnyMiner) (ui : List (String × String))
    (r : List SchemaField) (h : rpcGroupFields m ui = some r) :
    r.any isWebField = false ∧ r.any isSshField = false := by
  obtain ⟨rpc, web, ssh, api⟩ := m
  cases rpc with
  | none => simp [rpcGroupFields] at h; subst h; simp
  | some rpcv =>
    obtain ⟨rpwd⟩ := rpcv
    cases rpwd with
    | none => simp [rpcGroupFields] at h; subst h; simp
    | some p =>
      cases api with
      | none => simp [rpcGroupFields] at h
      | some apiv =>
        obtain ⟨apwd⟩ := apiv
        cases apwd with
        | none => simp [rpcGroupFields] at h; subst h; simp
        | some ap =>
          cases web with
          | none => simp [rpcGroupFields] at h
          | some w => simp [rpcGroupFields] at h; subst h; simp

theorem webGroupFields_any (m : AnyMiner) (ui : List (String × String)) :
    (webGroupFields m ui).any isRpcField = false
      ∧ (webGroupFields m ui).any isSshField = false
      ∧ ((webGroupFields m ui).any isWebField = true → m.web ≠ none) := by
  cases hw : m.web <;> simp [webGroupFields, hw]

theorem sshGroupFields_any (m : AnyMiner) (ui : List (String × String)) :
    (sshGroupFields m ui).any isRpcField = false
      ∧ (sshGroupFields m ui).any isWebField = false
      ∧ ((sshGroupFields m ui).any isSshField = true → m.ssh ≠ none) := by
  cases hs : m.ssh <;> simp [sshGroupFields, hs]

theorem groupCount_le_three (fields : List SchemaField) : groupCount fields ≤ 3 := by
  unfold groupCount
  split <;> split <;> split <;> omega

/-! ## Claim theorems -/

/-- C1: on a refresh, `new_data_received` creates a miner-level entity exactly
once for each key of `coordinator.data["miner_sensors"]` that is not already
in `sensor_created`, and creates none for a key already in that set. -/
theorem c1_refresh_creates_exactly_miner_delta (d : MinerData) (s : Finset String)
    (k : String) :
    countKey k (minerEntityKeys (new_data_received d s).2)
      = if k ∈ d.minerKeys ∧ k ∉ s then 1 else 0 := by
  rw [new_data_received]
  by_cases hb : d.boardSensors = []
  · simp [hb, minerEntityKeys_append, countKey_append, refreshMinerEntities_count]
  · simp [hb, minerEntityKeys_append, countKey_append, refreshMinerEntities_count,
      minerEntityKeys_refreshBoards]

/-- C2 (code bug): a board entity for board 0 / `board_temperature` is created
by a refresh and is created again by the next refresh with identical data:
`_create_board_entity` records `"board_0-board_temperature"` in
`sensor_created` but `new_data_received` tests `"0-board_temperature"`, so the
dedup check never matches and the pair is re-created on every refresh. -/
theorem c2_board_pair_recreated_on_later_refresh :
    Entity.board ⟨0, "board_temperature", "Board Temperature"⟩
        ∈ (new_data_received ⟨[], [(0, [("board_temperature", 60)])]⟩ ∅).2
      ∧ Entity.board ⟨0, "board_temperature", "Board Temperature"⟩
        ∈ (new_data_received ⟨[], [(0, [("board_temperature", 60)])]⟩
            (new_data_received ⟨[], [(0, [("board_temperature", 60)])]⟩ ∅).1).2
      ∧ "board_0-board_temperature"
        ∈ (new_data_received ⟨[], [(0, [("board_temperature", 60)])]⟩ ∅).1 := by
  decide

/-- C3: `sensor_created` grows monotonically: each entity-creation operation
and each run of the setup generators and of the refresh callback only adds
keys, never removing any. -/
theorem c3_sensor_created_monotone (d : MinerData) (s : Finset String)
    (key : String) (b : Nat) (sen : String) (ks : List String) (bs : List Nat) :
    s ⊆ (_create_miner_entity key s).1
      ∧ s ⊆ (_create_board_entity b sen s).1
      ∧ s ⊆ (setupMinerEntities ks s).1
      ∧ s ⊆ (setupBoards bs s).1
      ∧ s ⊆ (new_data_received d s).1 := by
  refine ⟨Finset.subset_insert _ s, Finset.subset_insert _ s,
    setupMinerEntities_subset ks s, setupBoards_subset bs s, ?_⟩
  rw [new_data_received]
  by_cases hb : d.boardSensors = []
  · simp only [hb, if_pos]
    exact refreshMinerEntities_subset _ s
  · simp only [hb, if_neg, ite_false]
    exact (refreshMinerEntities_subset _ s).trans (refreshBoards_subset _ _)

/-- C4: after a run of `new_data_received`, every key of the incoming
`coordinator.data["miner_sensors"]` is a member of `sensor_created`. -/
theorem c4_refresh_merges_miner_keys (d : MinerData) (s : Finset String)
    (k : String) (hk : k ∈ d.minerKeys) : k ∈ (new_data_received d s).1 := by
  rw [new_data_received]
  by_cases hb : d.boardSensors = []
  · simp only [hb, if_pos]
    exact refreshMinerEntities_mem_of_mem _ s k hk
  · simp only [hb, if_neg, ite_false]
    exact refreshBoards_subset _ _ (refreshMinerEntities_mem_of_mem _ s k hk)

/-- Witness for C4 at the concrete data
`miner_sensors = {"temperature": 50}`. -/
theorem c4_refresh_merges_miner_keys_witness :
    "temperature" ∈ (new_data_received ⟨[("temperature", 50)], []⟩ ∅).1 :=
  c4_refresh_merges_miner_keys ⟨[("temperature", 50)], []⟩ ∅ "temperature" (by decide)

/-- C5: `MinerSensor.native_value` is the plain dictionary read of
`coordinator.data["miner_sensors"]` at the entity's key, with no
transformation: it equals the lookup, and returns every stored value
unchanged. -/
theorem c5_miner_native_value_pure_read (e : MinerSensor) (d : MinerData) :
    e.native_value d = findKey e._key d.minerSensors
      ∧ ∀ v : Int, findKey e._key d.minerSensors = some v → e.native_value d = some v := by
  refine ⟨rfl, fun v hv => ?_⟩
  simp [MinerSensor.native_value, MinerSensor._sensor_data, hv]

/-- Witness for C5 at the concrete data `miner_sensors = {"temperature": 50}`. -/
theorem c5_miner_native_value_pure_read_witness :
    MinerSensor.native_value ⟨"temperature", "Temperature"⟩
        ⟨[("temperature", 50)], []⟩ = some 50 :=
  (c5_miner_native_value_pure_read ⟨"temperature", "Temperature"⟩
    ⟨[("temperature", 50)], []⟩).2 50 rfl

/-- C6: `validate_ip_input` returns a non-empty errors mapping paired with no
miner exactly when `pyasic.get_miner` returns `None` for the supplied IP, and
otherwise returns an empty errors mapping paired with the discovered miner. -/
theorem c6_validate_ip_input_errors_iff_no_miner
    (g : Option String → Option AnyMiner) (data : List (String × String)) :
    (((validate_ip_input g data).1 ≠ [] ∧ (validate_ip_input g data).2 = none)
        ↔ g (findKey CONF_IP data) = none)
      ∧ ∀ m : AnyMiner, g (findKey CONF_IP data) = some m →
          validate_ip_input g data = ([], some m) := by
  constructor
  · cases hg : g (findKey CONF_IP data) <;> simp [validate_ip_input, hg]
  · intro m hm
    simp [validate_ip_input, hm]

/-- Witness for C6 at a `get_miner` that always succeeds on the empty input. -/
theorem c6_validate_ip_input_errors_iff_no_miner_witness :
    validate_ip_input (fun _ => some ⟨none, none, none, none⟩) []
      = ([], some ⟨none, none, none, none⟩) :=
  (c6_validate_ip_input_errors_iff_no_miner
    (fun _ => some ⟨none, none, none, none⟩) []).2 ⟨none, none, none, none⟩ rfl

/-- C7 counterexample: the claim quantifies over every miner object, but for a
miner exposing the RPC interface with a password while `web` is `None` (and
`api.pwd` not `None`), `async_step_login` raises instead of building a form. -/
theorem c7_login_step_fails_counterexample :
    async_step_login ⟨some ⟨some "p"⟩, none, none, some ⟨some "p"⟩⟩ [] = none := rfl

/-- C7 (amended): for every miner for which `async_step_login` completes
without raising, the built form has at most three protocol groups and includes
a group only when the miner exposes that interface: an RPC password field only
when `miner.rpc` and `miner.rpc.pwd` are not `None`, web fields only when
`miner.web` is not `None`, SSH fields only when `miner.ssh` is not `None`. -/
theorem c7_login_groups_only_when_exposed (m : AnyMiner)
    (ui : List (String × String)) (fields : List SchemaField)
    (h : async_step_login m ui = some fields) :
    (fields.any isRpcField = true →
        ∃ rpc, m.rpc = some rpc ∧ rpc.pwd ≠ none)
      ∧ (fields.any isWebField = true → m.web ≠ none)
      ∧ (fields.any isSshField = true → m.ssh ≠ none)
      ∧ groupCount fields ≤ 3 := by
  rw [async_step_login] at h
  cases hg : rpcGroupFields m ui with
  | none => rw [hg] at h; simp at h
  | some r =>
    rw [hg] at h
    simp at h
    subst h
    refine ⟨fun ha => ?_, fun ha => ?_, fun ha => ?_, groupCount_le_three _⟩
    · rw [List.any_append, List.any_append, (webGroupFields_any m ui).1,
        (sshGroupFields_any m ui).1, Bool.or_false, Bool.or_false] at ha
      exact rpcGroupFields_any_isRpc m ui r hg ha
    · rw [List.any_append, List.any_append, (rpcGroupFields_no_web_ssh m ui r hg).1,
        (sshGroupFields_any m ui).2.1, Bool.false_or, Bool.or_false] at ha
      exact (webGroupFields_any m ui).2.2 ha
    · rw [List.any_append, List.any_append, (rpcGroupFields_no_web_ssh m ui r hg).2,
        (webGroupFields_any m ui).2.1, Bool.false_or, Bool.false_or] at ha
      exact (sshGroupFields_any m ui).2.2 ha

/-- Witness for C7 at a miner exposing all three interfaces. -/
theorem c7_login_groups_only_when_exposed_witness :
    ([ SchemaField.rpcPassword (some "wp"), SchemaField.webUsername "root"
      , SchemaField.webPassword "wp", SchemaField.sshUsername "root"
      , SchemaField.sshPassword "sp" ].any isRpcField = true →
        ∃ rpc, (AnyMiner.mk (some ⟨some "p"⟩) (some ⟨"root", some "wp"⟩)
            (some ⟨"root", some "sp"⟩) (some ⟨some "ap"⟩)).rpc = some rpc
          ∧ rpc.pwd ≠ none)
      ∧ ([ SchemaField.rpcPassword (some "wp"), SchemaField.webUsername "root"
         , SchemaField.webPassword "wp", SchemaField.sshUsername "root"
         , SchemaField.sshPassword "sp" ].any isWebField = true →
          (AnyMiner.mk (some ⟨some "p"⟩) (some ⟨"root", some "wp"⟩)
            (some ⟨"root", some "sp"⟩) (some ⟨some "ap"⟩)).web ≠ none)
      ∧ ([ SchemaField.rpcPassword (some "wp"), SchemaField.webUsername "root"
         , SchemaField.webPassword "wp", SchemaField.sshUsername "root"
         , SchemaField.sshPassword "sp" ].any isSshField = true →
          (AnyMiner.mk (some ⟨some "p"⟩) (some ⟨"root", some "wp"⟩)
            (some ⟨"root", some "sp"⟩) (some ⟨some "ap"⟩)).ssh ≠ none)
      ∧ groupCount [ SchemaField.rpcPassword (some "wp"), SchemaField.webUsername "root"
                   , SchemaField.webPassword "wp", SchemaField.sshUsername "root"
                   , SchemaField.sshPassword "sp" ] ≤ 3 :=
  c7_login_groups_only_when_exposed
    ⟨some ⟨some "p"⟩, some ⟨"root", some "wp"⟩, some ⟨"root", some "sp"⟩, some ⟨some "ap"⟩⟩
    []
    [ SchemaField.rpcPassword (some "wp"), SchemaField.webUsername "root"
    , SchemaField.webPassword "wp", SchemaField.sshUsername "root"
    , SchemaField.sshPassword "sp" ] rfl

/-- C8: at initial setup, `async_setup_entry` creates one miner-level entity
per `miner_sensors` key and, for every board index below
`expected_hashboards`, exactly the three fixed board entities, independently
of the `board_sensors` the first refresh reported. -/
theorem c8_setup_creates_all_keys_and_three_board_sensors (d : MinerData) (n : Nat) :
    (async_setup_entry d n).2
        = d.minerKeys.map (fun k => Entity.miner ⟨k, descriptionFor k⟩)
          ++ (List.range n).flatMap (fun b =>
              [ Entity.board ⟨b, "board_temperature", descriptionFor "board_temperature"⟩
              , Entity.board ⟨b, "chip_temperature", descriptionFor "chip_temperature"⟩
              , Entity.board ⟨b, "board_hashrate", descriptionFor "board_hashrate"⟩ ])
      ∧ ∀ bs' : List (Nat × List (String × Int)),
          (async_setup_entry ⟨d.minerSensors, bs'⟩ n).2 = (async_setup_entry d n).2 := by
  constructor
  · rw [async_setup_entry]
    simp [setupMinerEntities_snd, setupBoards_snd]
  · intro bs'
    rfl

/-- C9: `MinerBoardSensor.native_value` returns `none` whenever the board
index is absent from `coordinator.data["board_sensors"]` or the sensor key is
absent from that board's mapping, and returns the stored value when both are
present. -/
theorem c9_board_native_value_none_when_absent (e : MinerBoardSensor) (d : MinerData) :
    (findKey e._board_num d.boardSensors = none → e.native_value d = none)
      ∧ (∀ boardData, findKey e._board_num d.boardSensors = some boardData →
          findKey e._sensor boardData = none → e.native_value d = none)
      ∧ (∀ boardData (v : Int), findKey e._board_num d.boardSensors = some boardData →
          findKey e._sensor boardData = some v → e.native_value d = some v) := by
  refine ⟨fun h => ?_, fun bd hbd hs => ?_, fun bd v hbd hs => ?_⟩ <;>
    simp [MinerBoardSensor.native_value, MinerBoardSensor._sensor_data, *]

/-- Witness for C9 at the concrete data
`board_sensors = {0: {"board_temperature": 60}}`. -/
theorem c9_board_native_value_none_when_absent_witness :
    MinerBoardSensor.native_value ⟨0, "board_temperature", "Board Temperature"⟩
        ⟨[], [(0, [("board_temperature", 60)])]⟩ = some 60 :=
  (c9_board_native_value_none_when_absent
    ⟨0, "board_temperature", "Board Temperature"⟩
    ⟨[], [(0, [("board_temperature", 60)])]⟩).2.2 [("board_temperature", 60)] 60 rfl rfl

/-- C10 counterexample: a miner with `rpc.pwd` set, `api.pwd` equal to `None`
and `web` equal to `None` makes the claim's failure condition ("fails when
`miner.web` or `miner.api` is `None`") false: the step succeeds and defaults
the RPC password to the empty string without touching `web`. -/
theorem c10_succeeds_with_web_none_counterexample :
    async_step_login ⟨some ⟨some "p"⟩, none, none, some ⟨none⟩⟩ []
      = some [SchemaField.rpcPassword (some "")] := rfl

/-- C10 (amended): for every miner with `rpc` and `rpc.pwd` not `None`, the
step fails exactly when `api` is `None` or (`api.pwd` is not `None` and `web`
is `None`); when it succeeds with `api.pwd` not `None` and no user-supplied
value, the RPC password default is taken from `miner.web.pwd`, not from
`miner.rpc.pwd`. -/
theorem c10_rpc_default_from_web_failure_characterization (m : AnyMiner)
    (ui : List (String × String)) (rpc : RPCInterface) (p : String)
    (hrpc : m.rpc = some rpc) (hp : rpc.pwd = some p) :
    ((async_step_login m ui = none)
        ↔ (m.api = none ∨ ∃ api, m.api = some api ∧ api.pwd ≠ none ∧ m.web = none))
      ∧ (∀ (api : APIInterface) (ap : String) (web : WebInterface),
          m.api = some api → api.pwd = some ap → m.web = some web →
          findKey CONF_RPC_PASSWORD ui = none →
          ∃ rest, async_step_login m ui
            = some (SchemaField.rpcPassword web.pwd :: rest)) := by
  obtain ⟨rpc0, web, ssh, api⟩ := m
  simp only [AnyMiner.rpc] at hrpc
  subst hrpc
  cases api with
  | none =>
    constructor
    · simp [async_step_login, rpcGroupFields, hp]
    · intro api ap w hapi
      simp at hapi
  | some apiv =>
    obtain ⟨apwd⟩ := apiv
    cases apwd with
    | none =>
      constructor
      · simp [async_step_login, rpcGroupFields, hp]
      · intro api ap w hapi hap
        simp at hapi
        subst hapi
        simp at hap
    | some ap =>
      cases web with
      | none =>
        constructor
        · simp [async_step_login, rpcGroupFields, hp]
        · intro api ap' w hapi hap hw
          simp at hw
      | some w =>
        constructor
        · simp [async_step_login, rpcGroupFields, hp]
        · intro api ap' w' hapi hap hw hui
          simp at hw
          subst hw
          refine ⟨webGroupFields ⟨some rpc, some w, ssh, some ⟨some ap⟩⟩ ui
            ++ sshGroupFields ⟨some rpc, some w, ssh, some ⟨some ap⟩⟩ ui, ?_⟩
          simp [async_step_login, rpcGroupFields, hp, hui]

/-- Witness for C10 at a miner with `api.pwd` set and a web interface whose
password is `"wp"`: the RPC password field defaults to `some "wp"`. -/
theorem c10_rpc_default_from_web_failure_characterization_witness :
    ∃ rest, async_step_login
        ⟨some ⟨some "p"⟩, some ⟨"root", some "wp"⟩, none, some ⟨some "ap"⟩⟩ []
      = some (SchemaField.rpcPassword ((⟨"root", some "wp"⟩ : WebInterface).pwd) :: rest) :=
  (c10_rpc_default_from_web_failure_characterization
    ⟨some ⟨some "p"⟩, some ⟨"root", some "wp"⟩, none, some ⟨some "ap"⟩⟩ []
    ⟨some "p"⟩ "p" rfl rfl).2 ⟨some "ap"⟩ "ap" ⟨"root", some "wp"⟩ rfl rfl rfl rfl

end HassMiner
